import Mathlib

/-!
Verification of the request-shaping layer of a NocoDB REST client:
the pagination engine of `NocoDBClient.get_records`, the HTTP error
classifier `NocoDBClient._check_for_error`, the Filter/Sort expression
builders and the bulk batch splitter.
-/

namespace NocoDB

/-- A page response as `get_records` consumes it: the `"list"` key may be
absent (the code reads `response.get("list", [])`), and the
`pageInfo.isLastPage` flag may be absent (the code reads
`response.get("pageInfo", {})` followed by `page_info.get("isLastPage", True)`;
a missing `pageInfo` object and a `pageInfo` lacking the key both default the
flag, so a single optional Bool models both). -/
structure PageResponse (α : Type) where
  list : Option (List α)
  isLastPage : Option Bool

variable {α : Type} {β : Type}

/-- The batch of records the loop body extracts from the page fetched at a
given cursor state: `batch_records = response.get("list", [])`, where the
request carries `limit = min(remaining_limit, 100)` and the current offset. -/
def batchOf (fetch : Nat → Nat → PageResponse α) (offset : Nat) (remaining : Int) : List α :=
  (fetch offset (min remaining 100).toNat).list.getD []

/-- The `isLastPage` flag the loop body extracts from the page fetched at a
given cursor state, with the code's default:
`page_info.get("isLastPage", True)`. -/
def lastOf (fetch : Nat → Nat → PageResponse α) (offset : Nat) (remaining : Int) : Bool :=
  (fetch offset (min remaining 100).toNat).isLastPage.getD true

/-- The `while remaining_limit > 0` loop of `NocoDBClient.get_records`
(client.py lines 182-201), with the page-fetch collaborator abstracted as
`fetch offset batch_limit`.  `records` is the accumulator; `trace` records
each issued request as an `(offset, batch_limit)` pair (instrumentation only:
the accumulated records never depend on it).  Each iteration requests
`batch_limit = min(remaining_limit, 100)` records at `offset`, extends the
accumulator, advances `offset` and decreases `remaining_limit` by the number
of records actually returned, and breaks when the (defaulted) `isLastPage`
flag is true or the returned batch is empty. -/
def getRecordsLoop (fetch : Nat → Nat → PageResponse α) (offset : Nat) (remaining : Int)
    (records : List α) (trace : List (Nat × Nat)) : List α × List (Nat × Nat) :=
  if h : 0 < remaining then
    if lastOf fetch offset remaining || (batchOf fetch offset remaining).isEmpty then
      (records ++ batchOf fetch offset remaining,
       trace ++ [(offset, (min remaining 100).toNat)])
    else
      getRecordsLoop fetch (offset + (batchOf fetch offset remaining).length)
        (remaining - (batchOf fetch offset remaining).length)
        (records ++ batchOf fetch offset remaining)
        (trace ++ [(offset, (min remaining 100).toNat)])
  else (records, trace)
termination_by remaining.toNat
decreasing_by
  rename_i hb
  have hlen : 0 < (batchOf fetch offset remaining).length := by
    simp only [Bool.or_eq_true, not_or, Bool.not_eq_true] at hb
    have hne : (batchOf fetch offset remaining).isEmpty = false := hb.2
    cases hE : batchOf fetch offset remaining with
    | nil => rw [hE] at hne; simp at hne
    | cons a l => simp [hE]
  omega

/-- `NocoDBClient.get_records` (client.py lines 178-203): run the pagination
loop from `offset = 0`, `remaining_limit = limit` with empty accumulator, then
return `records[:limit]`.  (`limit` is a Python `int`, hence `Int`; when
`limit ≤ 0` the loop never runs and the slice of the empty list is empty, so
`List.take limit.toNat` is the faithful rendering of `records[:limit]` on
every reachable accumulator.) -/
def get_records (fetch : Nat → Nat → PageResponse α) (limit : Int) : List α :=
  ((getRecordsLoop fetch 0 limit [] []).1).take limit.toNat

/-- The sequence of `(offset, batch_limit)` page requests `get_records`
issues, in order. -/
def getRecordsTrace (fetch : Nat → Nat → PageResponse α) (limit : Int) : List (Nat × Nat) :=
  (getRecordsLoop fetch 0 limit [] []).2

/-- A deterministic page-provider stub: returns exactly the requested number
of records and always reports `isLastPage = false`. -/
def stubFull : Nat → Nat → PageResponse Nat :=
  fun _ batchLimit => ⟨some (List.replicate batchLimit 0), some false⟩

/-- A page-provider stub that returns the requested number of records and
reports `isLastPage = true` on every page. -/
def stubLast : Nat → Nat → PageResponse Nat :=
  fun _ batchLimit => ⟨some (List.replicate batchLimit 0), some true⟩

/-- A page-provider stub whose responses carry no `isLastPage` key at all. -/
def stubNoFlag : Nat → Nat → PageResponse Nat :=
  fun _ _ => ⟨some [7], none⟩

/-- A page-provider stub whose responses carry an empty record list. -/
def stubEmpty : Nat → Nat → PageResponse Nat :=
  fun _ _ => ⟨some [], some false⟩

/-- Spec-side pagination loop, following the spec (§4.3) word for word:
`initialize offset = 0, remaining = limit. Loop while remaining > 0: compute
batchSize = min(remaining, maxPageSize); call fetchPage(offset, batchSize);
append returned items to the accumulator; advance offset += len(items),
remaining -= len(items); terminate the loop if isLastPage is true OR the
returned batch is empty`.  The collaborator is the spec's
`fetchPage(offset, limit) -> {items: [T], isLastPage: bool}`. -/
def paginateGo (fetchPage : Nat → Nat → List α × Bool) (maxPageSize : Int)
    (offset : Nat) (remaining : Int) (acc : List α) : List α :=
  if h : 0 < remaining then
    if (fetchPage offset (min remaining maxPageSize).toNat).2
        || (fetchPage offset (min remaining maxPageSize).toNat).1.isEmpty then
      acc ++ (fetchPage offset (min remaining maxPageSize).toNat).1
    else
      paginateGo fetchPage maxPageSize
        (offset + (fetchPage offset (min remaining maxPageSize).toNat).1.length)
        (remaining - (fetchPage offset (min remaining maxPageSize).toNat).1.length)
        (acc ++ (fetchPage offset (min remaining maxPageSize).toNat).1)
  else acc
termination_by remaining.toNat
decreasing_by
  rename_i hb
  have hlen : 0 < (fetchPage offset (min remaining maxPageSize).toNat).1.length := by
    simp only [Bool.or_eq_true, not_or, Bool.not_eq_true] at hb
    have hne := hb.2
    cases hE : (fetchPage offset (min remaining maxPageSize).toNat).1 with
    | nil => rw [hE] at hne; simp at hne
    | cons a l => simp [hE]
  omega

/-- Spec-side `paginate(fetchPage, limit, maxPageSize)` (§4.3): run the loop
and `truncate the accumulator to exactly limit items`. -/
def paginate (fetchPage : Nat → Nat → List α × Bool) (limit : Int) (maxPageSize : Int) :
    List α :=
  (paginateGo fetchPage maxPageSize 0 limit []).take limit.toNat

/-- View a code-level page provider (optional `"list"`, optional
`pageInfo.isLastPage`) as the spec's `fetchPage` collaborator, applying the
code's defaults: a missing list is the empty batch and a missing flag reads
as `isLastPage = true`. -/
def asFetchPage (fetch : Nat → Nat → PageResponse α) : Nat → Nat → List α × Bool :=
  fun offset batchSize =>
    ((fetch offset batchSize).list.getD [], (fetch offset batchSize).isLastPage.getD true)

/-- The JSON body of an HTTP error response, as `_check_for_error` inspects
it: the `"error"` and `"message"` keys may each be absent. -/
structure ErrorBody where
  error : Option String
  message : Option String
deriving DecidableEq

/-- Outcome of `NocoDBClient._check_for_error`: return normally, raise
`RecordNotFoundException`, raise `NocoDBException`, or let
`response.raise_for_status()` raise a plain HTTP status error. -/
inductive CheckResult
  | ok
  | recordNotFound (error message : String)
  | nocodbError (error message : String)
  | httpStatusError (status : Nat)
deriving DecidableEq

/-- `requests.Response.raise_for_status()`: raises exactly for 4xx and 5xx
status codes. -/
def raise_for_status (status : Nat) : CheckResult :=
  if 400 ≤ status ∧ status < 600 then .httpStatusError status else .ok

/-- `NocoDBClient._check_for_error` (client.py lines 140-152): for a status
≥ 400, parse the JSON body (`body = none` models a `ValueError` from
`response.json()`); if it carries both `"error"` and `"message"` keys, raise
`RecordNotFoundException` when the error code is `"RECORD_NOT_FOUND"` and
`NocoDBException` otherwise; in every other case fall through to
`response.raise_for_status()`. -/
def check_for_error (status : Nat) (body : Option ErrorBody) : CheckResult :=
  if 400 ≤ status then
    match body with
    | some info =>
      match info.error, info.message with
      | some e, some m =>
        if e = "RECORD_NOT_FOUND" then .recordNotFound e m else .nocodbError e m
      | _, _ => raise_for_status status
    | none => raise_for_status status
  else .ok

lemma raise_for_status_ne_rnf (status : Nat) (e m : String) :
    raise_for_status status ≠ CheckResult.recordNotFound e m := by
  unfold raise_for_status
  split <;> simp

lemma getRecordsLoop_stop (fetch : Nat → Nat → PageResponse α) (offset : Nat)
    (remaining : Int) (h : ¬ 0 < remaining) (records : List α) (trace : List (Nat × Nat)) :
    getRecordsLoop fetch offset remaining records trace = (records, trace) := by
  rw [getRecordsLoop]
  simp [h]

lemma getRecordsLoop_break (fetch : Nat → Nat → PageResponse α) (offset : Nat)
    (remaining : Int) (h : 0 < remaining)
    (hb : (lastOf fetch offset remaining || (batchOf fetch offset remaining).isEmpty) = true)
    (records : List α) (trace : List (Nat × Nat)) :
    getRecordsLoop fetch offset remaining records trace =
      (records ++ batchOf fetch offset remaining,
       trace ++ [(offset, (min remaining 100).toNat)]) := by
  rw [getRecordsLoop]
  simp [h, hb]

lemma getRecordsLoop_cont (fetch : Nat → Nat → PageResponse α) (offset : Nat)
    (remaining : Int) (h : 0 < remaining)
    (hb : (lastOf fetch offset remaining || (batchOf fetch offset remaining).isEmpty) = false)
    (records : List α) (trace : List (Nat × Nat)) :
    getRecordsLoop fetch offset remaining records trace =
      getRecordsLoop fetch (offset + (batchOf fetch offset remaining).length)
        (remaining - (batchOf fetch offset remaining).length)
        (records ++ batchOf fetch offset remaining)
        (trace ++ [(offset, (min remaining 100).toNat)]) := by
  rw [getRecordsLoop]
  simp [h, hb]

lemma batchOf_length_pos (fetch : Nat → Nat → PageResponse α) (offset : Nat) (remaining : Int)
    (hb : (lastOf fetch offset remaining || (batchOf fetch offset remaining).isEmpty) = false) :
    0 < (batchOf fetch offset remaining).length := by
  simp only [Bool.or_eq_false_iff] at hb
  have hne := hb.2
  cases hE : batchOf fetch offset remaining with
  | nil => rw [hE] at hne; simp at hne
  | cons a l => simp [hE]

lemma paginateGo_stop (fetchPage : Nat → Nat → List α × Bool) (maxPageSize : Int)
    (offset : Nat) (remaining : Int) (h : ¬ 0 < remaining) (acc : List α) :
    paginateGo fetchPage maxPageSize offset remaining acc = acc := by
  rw [paginateGo]
  simp [h]

lemma paginateGo_break (fetchPage : Nat → Nat → List α × Bool) (maxPageSize : Int)
    (offset : Nat) (remaining : Int) (h : 0 < remaining)
    (hb : ((fetchPage offset (min remaining maxPageSize).toNat).2
        || (fetchPage offset (min remaining maxPageSize).toNat).1.isEmpty) = true)
    (acc : List α) :
    paginateGo fetchPage maxPageSize offset remaining acc =
      acc ++ (fetchPage offset (min remaining maxPageSize).toNat).1 := by
  rw [paginateGo]
  simp [h, hb]

lemma paginateGo_cont (fetchPage : Nat → Nat → List α × Bool) (maxPageSize : Int)
    (offset : Nat) (remaining : Int) (h : 0 < remaining)
    (hb : ((fetchPage offset (min remaining maxPageSize).toNat).2
        || (fetchPage offset (min remaining maxPageSize).toNat).1.isEmpty) = false)
    (acc : List α) :
    paginateGo fetchPage maxPageSize offset remaining acc =
      paginateGo fetchPage maxPageSize
        (offset + (fetchPage offset (min remaining maxPageSize).toNat).1.length)
        (remaining - (fetchPage offset (min remaining maxPageSize).toNat).1.length)
        (acc ++ (fetchPage offset (min remaining maxPageSize).toNat).1) := by
  rw [paginateGo]
  simp [h, hb]

lemma asFetchPage_items (fetch : Nat → Nat → PageResponse α) (offset : Nat) (remaining : Int) :
    (asFetchPage fetch offset (min remaining (100 : Int)).toNat).1 =
      batchOf fetch offset remaining := rfl

lemma asFetchPage_last (fetch : Nat → Nat → PageResponse α) (offset : Nat) (remaining : Int) :
    (asFetchPage fetch offset (min remaining (100 : Int)).toNat).2 =
      lastOf fetch offset remaining := rfl

lemma getRecordsLoop_acc (fetch : Nat → Nat → PageResponse α) :
    ∀ (n : Nat) (offset : Nat) (remaining : Int), remaining.toNat ≤ n →
    ∀ (records : List α) (trace : List (Nat × Nat)),
      getRecordsLoop fetch offset remaining records trace =
        (records ++ (getRecordsLoop fetch offset remaining [] []).1,
         trace ++ (getRecordsLoop fetch offset remaining [] []).2) := by
  intro n
  induction n with
  | zero =>
    intro offset remaining hn records trace
    have h : ¬ 0 < remaining := by omega
    rw [getRecordsLoop_stop fetch offset remaining h,
      getRecordsLoop_stop fetch offset remaining h]
    simp
  | succ n ih =>
    intro offset remaining hn records trace
    by_cases h : 0 < remaining
    · by_cases hb : (lastOf fetch offset remaining
          || (batchOf fetch offset remaining).isEmpty) = true
      · rw [getRecordsLoop_break fetch offset remaining h hb,
          getRecordsLoop_break fetch offset remaining h hb]
        simp
      · have hb2 : (lastOf fetch offset remaining
            || (batchOf fetch offset remaining).isEmpty) = false := by
          simp only [Bool.not_eq_true] at hb
          exact hb
        have hlen := batchOf_length_pos fetch offset remaining hb2
        have hn2 : (remaining - (batchOf fetch offset remaining).length).toNat ≤ n := by
          omega
        rw [getRecordsLoop_cont fetch offset remaining h hb2 records trace,
          getRecordsLoop_cont fetch offset remaining h hb2 [] [],
          ih _ _ hn2 (records ++ batchOf fetch offset remaining)
            (trace ++ [(offset, (min remaining 100).toNat)]),
          ih _ _ hn2 ([] ++ batchOf fetch offset remaining)
            ([] ++ [(offset, (min remaining 100).toNat)])]
        simp
    · rw [getRecordsLoop_stop fetch offset remaining h,
        getRecordsLoop_stop fetch offset remaining h]
      simp

lemma getRecordsLoop_refines (fetch : Nat → Nat → PageResponse α) :
    ∀ (n : Nat) (offset : Nat) (remaining : Int), remaining.toNat ≤ n →
    ∀ (records : List α) (trace : List (Nat × Nat)),
      (getRecordsLoop fetch offset remaining records trace).1 =
        paginateGo (asFetchPage fetch) 100 offset remaining records := by
  intro n
  induction n with
  | zero =>
    intro offset remaining hn records trace
    have h : ¬ 0 < remaining := by omega
    rw [getRecordsLoop_stop fetch offset remaining h,
      paginateGo_stop (asFetchPage fetch) 100 offset remaining h]
  | succ n ih =>
    intro offset remaining hn records trace
    by_cases h : 0 < remaining
    · by_cases hb : (lastOf fetch offset remaining
          || (batchOf fetch offset remaining).isEmpty) = true
      · rw [getRecordsLoop_break fetch offset remaining h hb,
          paginateGo_break (asFetchPage fetch) 100 offset remaining h
            (by rw [asFetchPage_last, asFetchPage_items]; exact hb)]
        rw [asFetchPage_items]
      · have hb2 : (lastOf fetch offset remaining
            || (batchOf fetch offset remaining).isEmpty) = false := by
          simp only [Bool.not_eq_true] at hb
          exact hb
        have hlen := batchOf_length_pos fetch offset remaining hb2
        have hn2 : (remaining - (batchOf fetch offset remaining).length).toNat ≤ n := by
          omega
        rw [getRecordsLoop_cont fetch offset remaining h hb2,
          paginateGo_cont (asFetchPage fetch) 100 offset remaining h
            (by rw [asFetchPage_last, asFetchPage_items]; exact hb2)]
        rw [asFetchPage_items]
        exact ih _ _ hn2 _ _
    · rw [getRecordsLoop_stop fetch offset remaining h,
        paginateGo_stop (asFetchPage fetch) 100 offset remaining h]

lemma getRecordsLoop_trace_bounds (fetch : Nat → Nat → PageResponse α) :
    ∀ (n : Nat) (offset : Nat) (remaining : Int), remaining.toNat ≤ n →
    ∀ (records : List α) (trace : List (Nat × Nat)),
      (∀ r ∈ trace, 0 < r.2 ∧ r.2 ≤ 100) →
      ∀ r ∈ (getRecordsLoop fetch offset remaining records trace).2,
        0 < r.2 ∧ r.2 ≤ 100 := by
  intro n
  induction n with
  | zero =>
    intro offset remaining hn records trace htr
    have h : ¬ 0 < remaining := by omega
    rw [getRecordsLoop_stop fetch offset remaining h]
    exact htr
  | succ n ih =>
    intro offset remaining hn records trace htr
    have hnew : ∀ r ∈ trace ++ [(offset, (min remaining 100).toNat)],
        0 < r.2 ∧ r.2 ≤ 100 → True := fun _ _ _ => trivial
    by_cases h : 0 < remaining
    · have hbl : 0 < (min remaining 100).toNat ∧ (min remaining 100).toNat ≤ 100 := by
        omega
      have htr2 : ∀ r ∈ trace ++ [(offset, (min remaining 100).toNat)],
          0 < r.2 ∧ r.2 ≤ 100 := by
        intro r hr
        rcases List.mem_append.mp hr with hr1 | hr2
        · exact htr r hr1
        · have : r = (offset, (min remaining 100).toNat) := by
            simpa using hr2
          rw [this]
          exact hbl
      by_cases hb : (lastOf fetch offset remaining
          || (batchOf fetch offset remaining).isEmpty) = true
      · rw [getRecordsLoop_break fetch offset remaining h hb]
        exact htr2
      · have hb2 : (lastOf fetch offset remaining
            || (batchOf fetch offset remaining).isEmpty) = false := by
          simp only [Bool.not_eq_true] at hb
          exact hb
        have hlen := batchOf_length_pos fetch offset remaining hb2
        have hn2 : (remaining - (batchOf fetch offset remaining).length).toNat ≤ n := by
          omega
        rw [getRecordsLoop_cont fetch offset remaining h hb2]
        exact ih _ _ hn2 _ _ htr2
    · rw [getRecordsLoop_stop fetch offset remaining h]
      exact htr

lemma getRecordsLoop_trace_length (fetch : Nat → Nat → PageResponse α) :
    ∀ (n : Nat) (offset : Nat) (remaining : Int), remaining.toNat ≤ n →
    ∀ (records : List α) (trace : List (Nat × Nat)),
      (getRecordsLoop fetch offset remaining records trace).2.length ≤
        trace.length + remaining.toNat := by
  intro n
  induction n with
  | zero =>
    intro offset remaining hn records trace
    have h : ¬ 0 < remaining := by omega
    rw [getRecordsLoop_stop fetch offset remaining h]
    simp
  | succ n ih =>
    intro offset remaining hn records trace
    by_cases h : 0 < remaining
    · by_cases hb : (lastOf fetch offset remaining
          || (batchOf fetch offset remaining).isEmpty) = true
      · rw [getRecordsLoop_break fetch offset remaining h hb]
        simp
        omega
      · have hb2 : (lastOf fetch offset remaining
            || (batchOf fetch offset remaining).isEmpty) = false := by
          simp only [Bool.not_eq_true] at hb
          exact hb
        have hlen := batchOf_length_pos fetch offset remaining hb2
        have hn2 : (remaining - (batchOf fetch offset remaining).length).toNat ≤ n := by
          omega
        rw [getRecordsLoop_cont fetch offset remaining h hb2]
        have := ih (offset + (batchOf fetch offset remaining).length)
          (remaining - (batchOf fetch offset remaining).length) hn2
          (records ++ batchOf fetch offset remaining)
          (trace ++ [(offset, (min remaining 100).toNat)])
        simp at this
        omega
    · rw [getRecordsLoop_stop fetch offset remaining h]
      simp

/-- In the trace started from the empty trace, a request whose response is
terminal (empty batch or a true/defaulted `isLastPage`) is followed by no
further request. -/
lemma getRecordsLoop_trace_terminal (fetch : Nat → Nat → PageResponse α) :
    ∀ (n : Nat) (offset : Nat) (remaining : Int), remaining.toNat ≤ n →
    ∀ (pre : List (Nat × Nat)) (req : Nat × Nat) (suf : List (Nat × Nat)),
      (getRecordsLoop fetch offset remaining [] []).2 = pre ++ req :: suf →
      (((fetch req.1 req.2).list.getD []).isEmpty = true ∨
        (fetch req.1 req.2).isLastPage.getD true = true) →
      suf = [] := by
  intro n
  induction n with
  | zero =>
    intro offset remaining hn pre req suf heq _
    have h : ¬ 0 < remaining := by omega
    rw [getRecordsLoop_stop fetch offset remaining h] at heq
    exact absurd heq.symm (by simp)
  | succ n ih =>
    intro offset remaining hn pre req suf heq hterm
    by_cases h : 0 < remaining
    · by_cases hb : (lastOf fetch offset remaining
          || (batchOf fetch offset remaining).isEmpty) = true
      · rw [getRecordsLoop_break fetch offset remaining h hb] at heq
        simp at heq
        rcases List.append_eq_cons.mp heq.symm with ⟨hpre, hrest⟩ | ⟨ys, hys, hrest⟩
        · exact (List.cons_eq_cons.mp hrest.symm).2.symm
        · cases hE : ys with
          | nil =>
            rw [hE] at hrest
            simp at hrest
          | cons b bs =>
            rw [hE] at hrest
            simp at hrest
      · have hb2 : (lastOf fetch offset remaining
            || (batchOf fetch offset remaining).isEmpty) = false := by
          simp only [Bool.not_eq_true] at hb
          exact hb
        have hlen := batchOf_length_pos fetch offset remaining hb2
        have hn2 : (remaining - (batchOf fetch offset remaining).length).toNat ≤ n := by
          omega
        rw [getRecordsLoop_cont fetch offset remaining h hb2,
          getRecordsLoop_acc fetch n _ _ hn2] at heq
        simp at heq
        cases hpre : pre with
        | nil =>
          rw [hpre] at heq
          simp at heq
          have hreq : req = (offset, (min remaining 100).toNat) := heq.1.symm
          simp only [Bool.or_eq_false_iff] at hb2
          rw [hreq] at hterm
          rcases hterm with hterm | hterm
          · exact absurd hterm (by
              have := hb2.2
              simp only [batchOf] at this
              simp [this])
          · exact absurd hterm (by
              have := hb2.1
              simp only [lastOf] at this
              simp [this])
        | cons p ps =>
          rw [hpre] at heq
          simp at heq
          exact ih _ _ hn2 ps req suf heq.2 hterm
    · rw [getRecordsLoop_stop fetch offset remaining h] at heq
      exact absurd heq.symm (by simp)

/-- C1: `get_records` follows the spec's pagination algorithm with page-size
ceiling 100: starting at `offset = 0`, `remaining = limit`, while
`remaining > 0` it requests `min(remaining, maxPageSize)` items at the
current offset, appends the returned items in page order, advances the
offset and decreases `remaining` by the number of items actually returned,
and returns the accumulator truncated to at most `limit` items; in
particular, when the collaborator supplies at least `limit` items across the
fetched pages, the result has exactly `limit` items. -/
theorem get_records_follows_spec_paginate (fetch : Nat → Nat → PageResponse α)
    (limit : Int) :
    get_records fetch limit = paginate (asFetchPage fetch) limit 100 ∧
    (limit.toNat ≤ (getRecordsLoop fetch 0 limit [] []).1.length →
      (get_records fetch limit).length = limit.toNat) := by
  constructor
  · unfold get_records paginate
    rw [getRecordsLoop_refines fetch limit.toNat 0 limit le_rfl [] []]
  · intro hge
    unfold get_records
    rw [List.length_take]
    omega

/-- Concrete instance of C1: a provider that always fills the requested batch
makes `get_records` agree with the spec's `paginate` and return exactly the
two requested records. -/
theorem get_records_follows_spec_paginate_witness :
    get_records stubFull 2 = paginate (asFetchPage stubFull) 2 100 ∧
    (get_records stubFull 2).length = (2 : Int).toNat := by
  refine ⟨(get_records_follows_spec_paginate stubFull 2).1, ?_⟩
  exact (get_records_follows_spec_paginate stubFull 2).2
    (by simp [getRecordsLoop, stubFull, batchOf, lastOf])

/-- C2: every page request `get_records` issues carries a batch size that is
strictly positive and at most the page-size ceiling 100. -/
theorem get_records_request_bounds (fetch : Nat → Nat → PageResponse α) (limit : Int)
    (r : Nat × Nat) (hr : r ∈ getRecordsTrace fetch limit) :
    0 < r.2 ∧ r.2 ≤ 100 := by
  exact getRecordsLoop_trace_bounds fetch limit.toNat 0 limit le_rfl [] []
    (by simp) r hr

/-- Concrete instance of C2: the single request issued for `limit = 2` asks
for 2 records, within the (0, 100] bounds. -/
theorem get_records_request_bounds_witness :
    0 < ((0, 2) : Nat × Nat).2 ∧ ((0, 2) : Nat × Nat).2 ≤ 100 :=
  get_records_request_bounds stubLast 2 (0, 2)
    (by simp [getRecordsTrace, getRecordsLoop, stubLast, batchOf, lastOf])

/-- C3: the pagination loop terminates after at most `limit` collaborator
calls, and no call is ever issued after a response whose record list is
empty or whose (defaulted) `isLastPage` flag is true. -/
theorem get_records_terminates (fetch : Nat → Nat → PageResponse α) (limit : Int) :
    (getRecordsTrace fetch limit).length ≤ limit.toNat ∧
    (∀ (pre : List (Nat × Nat)) (req : Nat × Nat) (suf : List (Nat × Nat)),
      getRecordsTrace fetch limit = pre ++ req :: suf →
      (((fetch req.1 req.2).list.getD []).isEmpty = true ∨
        (fetch req.1 req.2).isLastPage.getD true = true) →
      suf = []) := by
  constructor
  · have := getRecordsLoop_trace_length fetch limit.toNat 0 limit le_rfl [] []
    simpa [getRecordsTrace] using this
  · intro pre req suf heq hterm
    simp only [getRecordsTrace] at heq
    exact getRecordsLoop_trace_terminal fetch limit.toNat 0 limit le_rfl pre req suf heq hterm

/-- Concrete instance of C3: with a provider that reports `isLastPage = true`
on its first page, the loop makes at most 2 calls and nothing follows the
terminal response. -/
theorem get_records_terminates_witness :
    (getRecordsTrace stubLast 2).length ≤ (2 : Int).toNat ∧
    ([] : List (Nat × Nat)) = [] := by
  refine ⟨(get_records_terminates stubLast 2).1, ?_⟩
  exact (get_records_terminates stubLast 2).2 [] (0, 2) []
    (by simp [getRecordsTrace, getRecordsLoop, stubLast, batchOf, lastOf])
    (Or.inr (by simp [stubLast]))

/-- C8: a page response whose `pageInfo`/`isLastPage` is absent is treated as
the last page: the loop appends that response's records and issues no
further request, at every reachable loop state. -/
theorem get_records_missing_flag_is_last (fetch : Nat → Nat → PageResponse α)
    (offset : Nat) (remaining : Int) (records : List α) (trace : List (Nat × Nat))
    (h : 0 < remaining)
    (hmiss : (fetch offset (min remaining 100).toNat).isLastPage = none) :
    getRecordsLoop fetch offset remaining records trace =
      (records ++ (fetch offset (min remaining 100).toNat).list.getD [],
       trace ++ [(offset, (min remaining 100).toNat)]) := by
  have hb : (lastOf fetch offset remaining
      || (batchOf fetch offset remaining).isEmpty) = true := by
    simp [lastOf, hmiss]
  have := getRecordsLoop_break fetch offset remaining h hb records trace
  simpa [batchOf] using this

/-- Concrete instance of C8: a flagless response of one record stops the loop
immediately even though one more record was wanted. -/
theorem get_records_missing_flag_is_last_witness :
    getRecordsLoop stubNoFlag 0 2 [] [] = ([7], [(0, 2)]) := by
  have := get_records_missing_flag_is_last stubNoFlag 0 2 [] [] (by norm_num) rfl
  simpa [stubNoFlag] using this

/-- C9: for every `limit ≤ 0`, `get_records` issues no page request at all
and returns the empty list. -/
theorem get_records_nonpositive_limit (fetch : Nat → Nat → PageResponse α)
    (limit : Int) (h : limit ≤ 0) :
    get_records fetch limit = [] ∧ getRecordsTrace fetch limit = [] := by
  have h2 : ¬ 0 < limit := by omega
  unfold get_records getRecordsTrace
  rw [getRecordsLoop_stop fetch 0 limit h2]
  simp

/-- Concrete instance of C9: `limit = 0` yields no records and no requests. -/
theorem get_records_nonpositive_limit_witness :
    get_records stubFull 0 = [] ∧ getRecordsTrace stubFull 0 = [] :=
  get_records_nonpositive_limit stubFull 0 (by norm_num)

/-- C10: an empty result set is not an error: a first page whose `"list"` is
empty or missing yields the empty result list; `_check_for_error` classifies
a response as `RecordNotFoundException` only when the HTTP status is an
error status (≥ 400) and the JSON body carries the `RECORD_NOT_FOUND` error
code, and every status below 400 passes the check without raising. -/
theorem get_records_empty_not_error (fetch : Nat → Nat → PageResponse α) (limit : Int)
    (hempty : (fetch 0 (min limit 100).toNat).list.getD [] = []) :
    get_records fetch limit = [] ∧
    (∀ (status : Nat) (body : Option ErrorBody) (e m : String),
      check_for_error status body = CheckResult.recordNotFound e m →
      400 ≤ status ∧ e = "RECORD_NOT_FOUND" ∧
      ∃ info, body = some info ∧ info.error = some "RECORD_NOT_FOUND" ∧
        info.message = some m) ∧
    (∀ (status : Nat) (body : Option ErrorBody), status < 400 →
      check_for_error status body = CheckResult.ok) := by
  refine ⟨?_, ?_, ?_⟩
  · by_cases h : 0 < limit
    · have hb : (lastOf fetch 0 limit || (batchOf fetch 0 limit).isEmpty) = true := by
        simp [batchOf, hempty]
      unfold get_records
      rw [getRecordsLoop_break fetch 0 limit h hb]
      simp [batchOf, hempty]
    · unfold get_records
      rw [getRecordsLoop_stop fetch 0 limit h]
      simp
  · intro status body e m hres
    unfold check_for_error at hres
    split at hres
    · cases body with
      | none => exact absurd hres (raise_for_status_ne_rnf status e m)
      | some info =>
        cases hE : info.error with
        | none =>
          simp only [hE] at hres
          exact absurd hres (raise_for_status_ne_rnf status e m)
        | some ev =>
          cases hM : info.message with
          | none =>
            simp only [hE, hM] at hres
            exact absurd hres (raise_for_status_ne_rnf status e m)
          | some mv =>
            simp only [hE, hM] at hres
            split at hres
            · rename_i hev
              have h1 : ev = e ∧ mv = m := by
                cases hres
                exact ⟨rfl, rfl⟩
              refine ⟨by assumption, by rw [← h1.1]; exact hev, info, rfl, ?_, ?_⟩
              · rw [hE, hev]
              · rw [hM, h1.2]
            · simp_all
    · simp_all
  · intro status body hs
    unfold check_for_error
    rw [if_neg (by omega)]

/-- Concrete instance of C10: an empty first page gives an empty result, and
a 200 response is never classified as an error. -/
theorem get_records_empty_not_error_witness :
    get_records stubEmpty 5 = [] ∧ check_for_error 200 none = CheckResult.ok := by
  have h := get_records_empty_not_error stubEmpty 5 (by simp [stubEmpty])
  exact ⟨h.1, h.2.2 200 none (by norm_num)⟩

/-- Modelled from the spec: the repository under verification ships only the
tests of `nocodb_simple_client.filter_builder`; the module itself is absent,
so the builder is modelled from spec §3/§4.1.  The `logic` tag of a
condition: `NONE | AND | OR | NOT`. -/
inductive FilterLogic
  | none
  | and
  | or
  | not
deriving DecidableEq

/-- Modelled from the spec (§4.1): the logic tag's rendered form, emitted
immediately before the condition's own token: `""`, `"~and"`, `"~or"`,
`"~not"`. -/
def logicMark : FilterLogic → String
  | .none => ""
  | .and => "~and"
  | .or => "~or"
  | .not => "~not"

/-- Modelled from the spec (§3): a condition's value is absent for unary
operators, a list for `in`/`notin`/`btw`/`nbtw`, otherwise a scalar.  The
spec renders values by naive string conversion, so each value is carried
here as its converted string. -/
inductive FilterValue
  | unary
  | scalar (v : String)
  | listVal (vs : List String)
deriving DecidableEq

/-- Modelled from the spec (§3): the builder state is an ordered sequence of
`Condition | GroupMarker` tokens. -/
inductive FilterToken
  | groupOpen
  | groupClose
  | condition (logic : FilterLogic) (field : String) (op : String) (value : FilterValue)
deriving DecidableEq

/-- Modelled from the spec (§3): token sequence plus the open-group
counter. -/
structure FilterBuilder where
  tokens : List FilterToken
  openGroups : Nat
deriving DecidableEq

/-- Modelled from the spec (§4.1 error taxonomy, with `GroupError` and
`ValueError` sub-kinds as the tests match them). -/
inductive BuilderError
  | groupError (msg : String)
  | valueError (msg : String)
deriving DecidableEq

/-- Modelled from the spec (§4.1): the operator set of the rendering
contract table. -/
def supportedOps : List String :=
  ["eq", "neq", "gt", "gte", "lt", "lte", "like", "nlike", "in", "notin",
   "btw", "nbtw", "null", "notnull", "isblank", "isnotblank", "checked", "notchecked"]

/-- Modelled from the spec (§4.1): operator names render as themselves except
`isblank`/`isnotblank`, which render as `blank`/`notblank` (the external
grammar's contract). -/
def renderOp (op : String) : String :=
  if op = "isblank" then "blank"
  else if op = "isnotblank" then "notblank"
  else op

/-- Modelled from the spec (§4.1): the value part of a rendered condition
token: nothing for unary operators, `,value` for a scalar,
`,v1,v2,...` for a list. -/
def renderValue : FilterValue → String
  | .unary => ""
  | .scalar v => "," ++ v
  | .listVal vs => String.join (vs.map (fun v => "," ++ v))

/-- Modelled from the spec (§4.1): one token's emission: `GroupOpen` emits
`"("`, `GroupClose` emits `")"`, a condition emits its logic prefix
immediately followed by `(field,op,value[,value2,...])`. -/
def renderToken : FilterToken → String
  | .groupOpen => "("
  | .groupClose => ")"
  | .condition l f op v => logicMark l ++ "(" ++ f ++ "," ++ renderOp op ++ renderValue v ++ ")"

/-- Modelled from the spec (§4.1): `build` renders the tokens in emission
order. -/
def renderTokens : List FilterToken → String
  | [] => ""
  | t :: ts => renderToken t ++ renderTokens ts

/-- A fresh builder: no tokens, counter 0. -/
def FilterBuilder.empty : FilterBuilder := ⟨[], 0⟩

/-- Modelled from the spec (§4.1): append a condition after the fail-fast
operator check; `any operator outside this set fails with
ValueError("Unsupported operator")` at the call. -/
def FilterBuilder.addCondition (fb : FilterBuilder) (logic : FilterLogic)
    (field op : String) (value : FilterValue) : Except BuilderError FilterBuilder :=
  if op ∈ supportedOps then
    .ok ⟨fb.tokens ++ [.condition logic field op value], fb.openGroups⟩
  else .error (.valueError "Unsupported operator")

/-- The current scope has no condition yet: the token list is empty or ends
with a just-opened group. -/
def FilterBuilder.scopeEmpty (fb : FilterBuilder) : Bool :=
  match fb.tokens.getLast? with
  | Option.none => true
  | some FilterToken.groupOpen => true
  | some _ => false

/-- Modelled from the spec (§4.1): `where` appends a Condition with
`logic=NONE` if it is the first token in the current scope, else fails
closed. -/
def FilterBuilder.where_ (fb : FilterBuilder) (field op : String) (value : FilterValue) :
    Except BuilderError FilterBuilder :=
  if fb.scopeEmpty then fb.addCondition .none field op value
  else .error (.valueError "where() requires an empty scope")

/-- Modelled from the spec (§4.1): `and_` appends a Condition with
`logic=AND`. -/
def FilterBuilder.and_ (fb : FilterBuilder) (field op : String) (value : FilterValue) :
    Except BuilderError FilterBuilder :=
  fb.addCondition .and field op value

/-- Modelled from the spec (§4.1): `or_` appends a Condition with
`logic=OR`. -/
def FilterBuilder.or_ (fb : FilterBuilder) (field op : String) (value : FilterValue) :
    Except BuilderError FilterBuilder :=
  fb.addCondition .or field op value

/-- Modelled from the spec (§4.1): `not_` appends a Condition with
`logic=NOT`. -/
def FilterBuilder.not_ (fb : FilterBuilder) (field op : String) (value : FilterValue) :
    Except BuilderError FilterBuilder :=
  fb.addCondition .not field op value

/-- Modelled from the spec (§4.1): `group_start` pushes a GroupOpen token and
increments the open-group counter. -/
def FilterBuilder.group_start (fb : FilterBuilder) : FilterBuilder :=
  ⟨fb.tokens ++ [.groupOpen], fb.openGroups + 1⟩

/-- Modelled from the spec (§4.1): `group_end` pushes a GroupClose token and
decrements the counter; fails with `GroupError("No group to close")` if the
counter is already 0. -/
def FilterBuilder.group_end (fb : FilterBuilder) : Except BuilderError FilterBuilder :=
  if fb.openGroups = 0 then .error (.groupError "No group to close")
  else .ok ⟨fb.tokens ++ [.groupClose], fb.openGroups - 1⟩

/-- Modelled from the spec (§4.1): `build` fails with
`GroupError("Unclosed groups")` if the open-group counter is nonzero,
otherwise renders the tokens in order (`""` if no tokens were ever
added). -/
def FilterBuilder.build (fb : FilterBuilder) : Except BuilderError String :=
  if fb.openGroups ≠ 0 then .error (.groupError "Unclosed groups")
  else .ok (renderTokens fb.tokens)

/-- Modelled from the spec (§4.2): a sort direction. -/
inductive SortDirection
  | asc
  | desc
deriving DecidableEq

/-- Modelled from the spec (§3/§4.2): the sort builder holds an ordered list
of `{field, direction}` entries; order is the tie-break precedence. -/
structure SortBuilder where
  fields : List (String × SortDirection)
deriving DecidableEq

/-- A fresh sort builder. -/
def SortBuilder.empty : SortBuilder := ⟨[]⟩

/-- Modelled from the spec (§4.2): case-insensitive comparison of the
direction argument, implemented as per-character lowercasing. -/
def lowerString (s : String) : String := ⟨s.data.map Char.toLower⟩

/-- Modelled from the spec (§4.2): `add(field, direction)` with
case-insensitive `"asc"`/`"desc"`; any other value fails with
`ValueError("Direction must be 'asc' or 'desc'")`. -/
def SortBuilder.add (sb : SortBuilder) (field direction : String) :
    Except BuilderError SortBuilder :=
  if lowerString direction = "asc" then .ok ⟨sb.fields ++ [(field, .asc)]⟩
  else if lowerString direction = "desc" then .ok ⟨sb.fields ++ [(field, .desc)]⟩
  else .error (.valueError "Direction must be \x27asc\x27 or \x27desc\x27")

/-- Modelled from the spec (§4.2): `asc(field)`, a convenience wrapper around
`add`. -/
def SortBuilder.asc (sb : SortBuilder) (field : String) : Except BuilderError SortBuilder :=
  sb.add field "asc"

/-- Modelled from the spec (§4.2): `desc(field)`, a convenience wrapper
around `add`. -/
def SortBuilder.desc (sb : SortBuilder) (field : String) : Except BuilderError SortBuilder :=
  sb.add field "desc"

/-- Modelled from the spec (§4.2): one sort entry renders as the bare field
for ascending and `-field` for descending. -/
def renderSortField : String × SortDirection → String
  | (f, .asc) => f
  | (f, .desc) => "-" ++ f

/-- Modelled from the spec (§4.2): entries are comma-joined in insertion
order; the empty list renders as `""`. -/
def renderSortFields : List (String × SortDirection) → String
  | [] => ""
  | [x] => renderSortField x
  | x :: y :: ys => renderSortField x ++ "," ++ renderSortFields (y :: ys)

/-- Modelled from the spec (§4.2): `build`. -/
def SortBuilder.build (sb : SortBuilder) : String :=
  renderSortFields sb.fields

/-- Modelled from the spec: the batch splitter of the bulk operations
(`bulk_insert_records` and friends exist only in the tests of this
repository, not under its sources), from spec §4.4: split the input into
contiguous chunks of at most `maxBatchSize` items, preserving order.  The
spec assumes `maxBatchSize > 0`; a zero chunk size degenerates to a single
chunk. -/
def chunks (maxBatchSize : Nat) (items : List α) : List (List α) :=
  if items.isEmpty then []
  else if maxBatchSize = 0 then [items]
  else items.take maxBatchSize :: chunks maxBatchSize (items.drop maxBatchSize)
termination_by items.length
decreasing_by
  rename_i hne hm
  have : items ≠ [] := by
    cases items with
    | nil => simp at hne
    | cons a l => simp
  cases items with
  | nil => simp at this
  | cons a l => simp; omega

/-- Modelled from the spec (§4.4): `batch(executeBatch, items, maxBatchSize)`
calls the collaborator once per chunk in chunk order and concatenates the
per-chunk result lists in chunk order. -/
def batch (executeBatch : List α → List β) (items : List α) (maxBatchSize : Nat) :
    List β :=
  ((chunks maxBatchSize items).map executeBatch).flatten

lemma chunks_nil (m : Nat) : chunks m ([] : List α) = [] := by
  rw [chunks]
  simp

lemma chunks_cons (m : Nat) (hm : m ≠ 0) (items : List α) (hne : items ≠ []) :
    chunks m items = items.take m :: chunks m (items.drop m) := by
  rw [chunks]
  simp [hm, hne]

lemma chunks_flatten (m : Nat) (hm : 0 < m) :
    ∀ (n : Nat) (items : List α), items.length ≤ n → (chunks m items).flatten = items := by
  intro n
  induction n with
  | zero =>
    intro items hn
    have : items = [] := by
      cases items with
      | nil => rfl
      | cons a l => simp at hn
    rw [this, chunks_nil]
    rfl
  | succ n ih =>
    intro items hn
    cases items with
    | nil => rw [chunks_nil]; rfl
    | cons a l =>
      rw [chunks_cons m (by omega) (a :: l) (by simp)]
      have hd : ((a :: l).drop m).length ≤ n := by
        simp only [List.length_drop, List.length_cons]
        simp only [List.length_cons] at hn
        omega
      simp only [List.flatten_cons, ih _ hd]
      exact List.take_append_drop m (a :: l)

lemma chunks_length_eq (m : Nat) (hm : 0 < m) :
    ∀ (n : Nat) (items : List α), items.length ≤ n →
      (chunks m items).length = (items.length + m - 1) / m := by
  intro n
  induction n with
  | zero =>
    intro items hn
    have hit : items = [] := by
      cases items with
      | nil => rfl
      | cons a l => simp at hn
    rw [hit, chunks_nil]
    have : (([] : List α).length + m - 1) / m = 0 := Nat.div_eq_of_lt (by simp; omega)
    rw [this]
    rfl
  | succ n ih =>
    intro items hn
    cases items with
    | nil =>
      rw [chunks_nil]
      have : (([] : List α).length + m - 1) / m = 0 := Nat.div_eq_of_lt (by simp; omega)
      rw [this]
      rfl
    | cons a l =>
      rw [chunks_cons m (by omega) (a :: l) (by simp)]
      have hd : ((a :: l).drop m).length ≤ n := by
        simp only [List.length_drop, List.length_cons]
        simp only [List.length_cons] at hn
        omega
      rw [List.length_cons, ih _ hd, List.length_drop]
      simp only [List.length_cons]
      rcases Nat.lt_or_ge (l.length + 1) m with hlt | hge
      · have e1 : l.length + 1 - m = 0 := by omega
        rw [e1]
        have e2 : (0 + m - 1) / m = 0 := Nat.div_eq_of_lt (by omega)
        rw [e2]
        have e3 : (l.length + 1 + m - 1) / m = 1 := Nat.div_eq_of_lt_le (by omega) (by omega)
        rw [e3]
      · have e1 : l.length + 1 - m + m - 1 = l.length := by omega
        have e2 : l.length + 1 + m - 1 = l.length + m := by omega
        rw [e1, e2, Nat.add_div_right _ hm]

lemma flatten_map_length (executeBatch : List α → List β)
    (hc : ∀ c, (executeBatch c).length = c.length) :
    ∀ cs : List (List α), ((cs.map executeBatch).flatten).length = cs.flatten.length := by
  intro cs
  induction cs with
  | nil => rfl
  | cons c cs ih => simp [hc, ih]

/-- C4: for balanced groups, `build` renders the accumulated tokens in
emission order: `GroupOpen` emits `(`, `GroupClose` emits `)`, and a
condition emits its logic prefix (empty for the first condition, `~and`,
`~or`, `~not`) immediately followed by `(field,op,value...)`; in particular
`where("Name","eq","John").build()` is `(Name,eq,John)`, a
`where.and_.or_` chain renders as `(a)~and(b)~or(c)`, and a builder with no
tokens builds to the empty string. -/
theorem filter_build_renders_tokens (fb : FilterBuilder) :
    (fb.openGroups = 0 → fb.build = Except.ok (renderTokens fb.tokens)) ∧
    (FilterBuilder.empty.where_ "Name" "eq" (.scalar "John")).bind FilterBuilder.build
      = Except.ok "(Name,eq,John)" ∧
    (∀ (f1 o1 : String) (v1 : FilterValue) (f2 o2 : String) (v2 : FilterValue)
        (f3 o3 : String) (v3 : FilterValue),
      o1 ∈ supportedOps → o2 ∈ supportedOps → o3 ∈ supportedOps →
      ((FilterBuilder.empty.where_ f1 o1 v1).bind
        (fun b => (b.and_ f2 o2 v2).bind
          (fun b2 => (b2.or_ f3 o3 v3).bind FilterBuilder.build)))
        = Except.ok (renderToken (.condition .none f1 o1 v1)
            ++ renderToken (.condition .and f2 o2 v2)
            ++ renderToken (.condition .or f3 o3 v3))) ∧
    FilterBuilder.empty.build = Except.ok "" := by
  refine ⟨?_, by rfl, ?_, by rfl⟩
  · intro h
    simp [FilterBuilder.build, h]
  · intro f1 o1 v1 f2 o2 v2 f3 o3 v3 h1 h2 h3
    simp [FilterBuilder.where_, FilterBuilder.scopeEmpty, FilterBuilder.empty,
      FilterBuilder.addCondition, FilterBuilder.and_, FilterBuilder.or_,
      FilterBuilder.build, h1, h2, h3, Except.bind, renderTokens,
      String.append_empty, String.append_assoc]

/-- Concrete instance of C4: the worked example and the empty build. -/
theorem filter_build_renders_tokens_witness :
    FilterBuilder.empty.build = Except.ok "" ∧
    (FilterBuilder.empty.where_ "Name" "eq" (.scalar "John")).bind FilterBuilder.build
      = Except.ok "(Name,eq,John)" := by
  have h := filter_build_renders_tokens FilterBuilder.empty
  exact ⟨h.1 rfl, h.2.1⟩

/-- C5: `group_end` fails with `GroupError("No group to close")` exactly
when the open-group counter is 0 at the call; `build` fails exactly when the
counter is nonzero at the call, and then with
`GroupError("Unclosed groups")`; once a matching `group_end` returns the
counter to 0, `build` succeeds. -/
theorem filter_group_balance_errors (fb : FilterBuilder) :
    (fb.group_end = Except.error (BuilderError.groupError "No group to close")
      ↔ fb.openGroups = 0) ∧
    ((∃ e, fb.build = Except.error e) ↔ fb.openGroups ≠ 0) ∧
    (fb.openGroups ≠ 0 →
      fb.build = Except.error (BuilderError.groupError "Unclosed groups")) ∧
    (fb.openGroups = 1 → ∃ fb2, fb.group_end = Except.ok fb2 ∧
      ∃ s, fb2.build = Except.ok s) := by
  refine ⟨?_, ?_, ?_, ?_⟩
  · by_cases h : fb.openGroups = 0
    · simp [FilterBuilder.group_end, h]
    · simp [FilterBuilder.group_end, h]
  · by_cases h : fb.openGroups = 0
    · simp [FilterBuilder.build, h]
    · simp [FilterBuilder.build, h]
  · intro h
    simp [FilterBuilder.build, h]
  · intro h
    refine ⟨⟨fb.tokens ++ [.groupClose], fb.openGroups - 1⟩, ?_, ?_⟩
    · rw [FilterBuilder.group_end, if_neg (by omega)]
    · exact ⟨renderTokens (fb.tokens ++ [.groupClose]), by simp [FilterBuilder.build, h]⟩

/-- Concrete instance of C5: one unmatched `group_start` makes `build` fail;
closing it lets `build` succeed. -/
theorem filter_group_balance_errors_witness :
    (FilterBuilder.mk [FilterToken.groupOpen] 1).build
      = Except.error (BuilderError.groupError "Unclosed groups") ∧
    ∃ fb2, (FilterBuilder.mk [FilterToken.groupOpen] 1).group_end = Except.ok fb2 ∧
      ∃ s, fb2.build = Except.ok s := by
  have h := filter_group_balance_errors ⟨[FilterToken.groupOpen], 1⟩
  exact ⟨h.2.2.1 (by decide), h.2.2.2 rfl⟩

/-- C7: `build` renders each accumulated sort field bare for ascending and
`-`-prefixed for descending, comma-joined in insertion order; the empty
builder renders `""`; `add` matches the direction case-insensitively against
`asc`/`desc` and any other direction fails with
`ValueError("Direction must be 'asc' or 'desc'")` at the `add` call. -/
theorem sort_builder_renders (sb : SortBuilder) (field direction : String) :
    SortBuilder.empty.build = "" ∧
    ((SortBuilder.empty.asc "Name").bind
      (fun b => Except.map SortBuilder.build (b.desc "Score")) = Except.ok "Name,-Score") ∧
    (lowerString direction = "asc" →
      sb.add field direction = Except.ok ⟨sb.fields ++ [(field, .asc)]⟩) ∧
    (lowerString direction = "desc" →
      sb.add field direction = Except.ok ⟨sb.fields ++ [(field, .desc)]⟩) ∧
    (lowerString direction ≠ "asc" → lowerString direction ≠ "desc" →
      sb.add field direction
        = Except.error (BuilderError.valueError "Direction must be \x27asc\x27 or \x27desc\x27")) ∧
    (∀ f : String, SortBuilder.build ⟨[(f, .asc)]⟩ = f) ∧
    (∀ f : String, SortBuilder.build ⟨[(f, .desc)]⟩ = "-" ++ f) ∧
    (∀ (x y : String × SortDirection) (ys : List (String × SortDirection)),
      SortBuilder.build ⟨x :: y :: ys⟩
        = renderSortField x ++ "," ++ SortBuilder.build ⟨y :: ys⟩) := by
  refine ⟨rfl, by rfl, ?_, ?_, ?_, ?_, ?_, ?_⟩
  · intro h
    simp [SortBuilder.add, h]
  · intro h
    simp [SortBuilder.add, h]
  · intro h1 h2
    simp [SortBuilder.add, h1, h2]
  · intro f
    rfl
  · intro f
    rfl
  · intro x y ys
    rfl

/-- Concrete instance of C7: a case-insensitive direction is accepted and the
empty builder renders the empty string. -/
theorem sort_builder_renders_witness :
    SortBuilder.empty.add "X" "ASC"
      = Except.ok ⟨SortBuilder.empty.fields ++ [("X", SortDirection.asc)]⟩ ∧
    SortBuilder.empty.build = "" := by
  have h := sort_builder_renders SortBuilder.empty "X" "ASC"
  exact ⟨h.2.2.1 (by decide), h.1⟩

/-- C6: the batch splitter cuts the input into `ceil(N / maxBatchSize)`
contiguous order-preserving chunks (their concatenation is the input), calls
the collaborator once per chunk in chunk order, concatenates the per-chunk
results in chunk order into a result of length `N` aligned with the input
order, and for `N = 0` produces no chunks (hence no collaborator call) and
an empty result. -/
theorem batch_splits_and_reassembles (executeBatch : List α → List β) (items : List α)
    (maxBatchSize : Nat) (hpos : 0 < maxBatchSize) :
    (chunks maxBatchSize items).length = (items.length + maxBatchSize - 1) / maxBatchSize ∧
    (chunks maxBatchSize items).flatten = items ∧
    ((∀ c, (executeBatch c).length = c.length) →
      (batch executeBatch items maxBatchSize).length = items.length) ∧
    (∀ f : α → β, batch (List.map f) items maxBatchSize = items.map f) ∧
    (items = [] → chunks maxBatchSize items = [] ∧
      batch executeBatch items maxBatchSize = []) := by
  refine ⟨chunks_length_eq maxBatchSize hpos items.length items le_rfl,
    chunks_flatten maxBatchSize hpos items.length items le_rfl, ?_, ?_, ?_⟩
  · intro hc
    unfold batch
    rw [flatten_map_length executeBatch hc,
      chunks_flatten maxBatchSize hpos items.length items le_rfl]
  · intro f
    unfold batch
    rw [← List.map_flatten, chunks_flatten maxBatchSize hpos items.length items le_rfl]
  · intro h
    rw [h]
    exact ⟨chunks_nil maxBatchSize, by unfold batch; rw [chunks_nil]; rfl⟩

/-- Concrete instance of C6: 3 items with chunk size 2 give 2 chunks whose
mapped-and-concatenated results follow the input order. -/
theorem batch_splits_and_reassembles_witness :
    (chunks 2 ([1, 2, 3] : List Nat)).length = (3 + 2 - 1) / 2 ∧
    batch (List.map (fun x : Nat => x + 1)) [1, 2, 3] 2 = [2, 3, 4] := by
  have h := batch_splits_and_reassembles (List.map (fun x : Nat => x + 1)) [1, 2, 3] 2
    (by norm_num)
  refine ⟨by simpa using h.1, ?_⟩
  rw [h.2.2.2.1 (fun x : Nat => x + 1)]
  rfl

end NocoDB
